import Mathlib

/-!
Verification of the c2rust-clean tool against its natural-language
specification.

The tool is a small Rust CLI (sources: `src/main.rs`, `src/config_helper.rs`,
`src/executor.rs`, `src/git_helper.rs`, `src/error.rs`; `src/config.rs` is an
earlier iteration that is not part of the compiled module tree, since
`main.rs` declares only `mod config_helper; mod error; mod executor;
mod git_helper;`).

Modelling conventions:
* Rust `String`/`&str` values processed character-by-character are embedded
  as `List Char`.  Rust `str::trim` trims Unicode whitespace; all inputs
  relevant to the claims are ASCII, so whitespace is modelled as the ASCII
  whitespace characters.
* Filesystem paths are embedded as lists of path segments.  For the
  project-root search the list is ordered deepest segment first, so that the
  parent directory is the tail of the list and the filesystem root is `[]`.
* Subprocess invocations are embedded by passing the observed outcome of the
  subprocess (`ProcOutput`, or `none` when spawning itself failed) as an
  explicit input.
* The external configuration tool `c2rust-config` is not part of this
  repository; where its behaviour decides a claim it is modelled from the
  spec (definitions marked `Modelled from the spec`).
-/

namespace C2RustClean

/-! ### Character and string primitives (embedding of Rust `str` operations) -/

/-- ASCII whitespace predicate modelling Rust `char::is_whitespace` on the
ASCII inputs relevant here. -/
def isWsChar (c : Char) : Bool :=
  c = ' ' || c = '\t' || c = '\n' || c = '\r'

/-- The double-quote character `"` (code point 34). -/
def dq : Char := Char.ofNat 34

/-- The single-quote character (code point 39). -/
def sq : Char := Char.ofNat 39

/-- Embedding of Rust `str::trim_start`. -/
def trimLeft (l : List Char) : List Char :=
  l.dropWhile isWsChar

/-- Embedding of Rust `str::trim_end`. -/
def trimRight (l : List Char) : List Char :=
  (l.reverse.dropWhile isWsChar).reverse

/-- Embedding of Rust `str::trim`. -/
def trimChars (l : List Char) : List Char :=
  trimRight (trimLeft l)

/-- Embedding of Rust `str::split(c)`: splits at every occurrence of `c`;
an empty input yields one empty piece, as in Rust. -/
def splitOnChar (c : Char) : List Char → List (List Char)
  | [] => [[]]
  | x :: xs =>
    if x = c then [] :: splitOnChar c xs
    else
      match splitOnChar c xs with
      | [] => [[x]]
      | h :: t => (x :: h) :: t

/-- Embedding of Rust `str::split_once(c)`: splits at the first occurrence
of `c` only, returning `none` when `c` does not occur. -/
def splitOnceChar (c : Char) : List Char → Option (List Char × List Char)
  | [] => none
  | x :: xs =>
    if x = c then some ([], xs)
    else (splitOnceChar c xs).map (fun p => (x :: p.1, p.2))

/-- Embedding of Rust `str::strip_prefix(c)` for a single character. -/
def stripPrefixChar (c : Char) : List Char → Option (List Char)
  | [] => none
  | x :: xs => if x = c then some xs else none

/-- Embedding of Rust `str::strip_suffix(c)` for a single character. -/
def stripSuffixChar (c : Char) (l : List Char) : Option (List Char) :=
  (stripPrefixChar c l.reverse).map List.reverse

/-- Embedding of Rust `str::starts_with(c)` for a single character. -/
def startsWithChar (c : Char) : List Char → Bool
  | [] => false
  | x :: _ => x = c

/-- Embedding of Rust `str::ends_with(c)` for a single character. -/
def endsWithChar (c : Char) (l : List Char) : Bool :=
  startsWithChar c l.reverse

/-! ### `config_helper.rs`: the persisted-configuration record and its parser -/

/-- Embedding of `config_helper::CleanConfig`. -/
structure CleanConfig where
  dir : Option (List Char)
  command : Option (List Char)
deriving DecidableEq

/-- The empty configuration, `CleanConfig::default()`. -/
def CleanConfig.empty : CleanConfig := ⟨none, none⟩

/-- Embedding of `config_helper::remove_quotes`: strips one matching pair of
surrounding quote characters (double or single) when the string has length at
least 2; it does not un-escape embedded quotes. -/
def remove_quotes (s : List Char) : List Char :=
  if (startsWithChar dq s && endsWithChar dq s && decide (2 ≤ s.length))
      || (startsWithChar sq s && endsWithChar sq s && decide (2 ≤ s.length)) then
    (s.drop 1).dropLast
  else s

/-- Embedding of the per-segment step of `config_helper::parse_clean_config`'s
loop body: trim the segment, split it at the first `=`, trim key and value,
strip quotes from the value, and assign the `cmd`/`dir` field. -/
def applyKV (cfg : CleanConfig) (part : List Char) : CleanConfig :=
  match splitOnceChar '=' (trimChars part) with
  | some kv =>
    let key := trimChars kv.1
    let value := remove_quotes (trimChars kv.2)
    if key = ['c', 'm', 'd'] then { cfg with command := some value }
    else if key = ['d', 'i', 'r'] then { cfg with dir := some value }
    else cfg
  | none => cfg

/-- Embedding of `config_helper::parse_clean_config`.  Note the fallbacks:
`strip_prefix('{').unwrap_or(t)` and `strip_suffix('}').unwrap_or(t)` both
fall back to the whole trimmed string `t`. -/
def parse_clean_config (s : List Char) : CleanConfig :=
  let t := trimChars s
  let a := (stripPrefixChar '{' t).getD t
  let b := (stripSuffixChar '}' a).getD t
  let content := trimChars b
  (splitOnChar ',' content).foldl applyKV CleanConfig.empty

/-! ### Spec-side parser (the claim's description of the parsing steps)

Claim C5 describes the parser as performing exactly: strip one matching pair
of enclosing braces, split on top-level commas, split each segment on the
first `=` only, trim whitespace, and strip one matching pair of surrounding
quotes from each value, without un-escaping.  The following definitions
follow those words. -/

/-- Strip one matching pair of enclosing braces: both a leading `{` and a
trailing `}` must be present for anything to be stripped. -/
def stripBracesMatching (t : List Char) : List Char :=
  if startsWithChar '{' t && endsWithChar '}' t then (t.drop 1).dropLast else t

/-- Prepend a character to the first piece of a split result. -/
def consHeadPiece (x : Char) : List (List Char) → List (List Char)
  | [] => [[x]]
  | h :: t => (x :: h) :: t

/-- Quote-aware scanner for the top-level comma split: the first argument is
the currently open quote character, if any.  A comma inside a quoted span is
not a split point. -/
def splitTopGo : Option Char → List Char → List (List Char)
  | _, [] => [[]]
  | none, x :: xs =>
    if x = ',' then [] :: splitTopGo none xs
    else if x = dq || x = sq then consHeadPiece x (splitTopGo (some x) xs)
    else consHeadPiece x (splitTopGo none xs)
  | some q, x :: xs =>
    if x = q then consHeadPiece x (splitTopGo none xs)
    else consHeadPiece x (splitTopGo (some q) xs)

/-- Split on top-level commas (commas not inside a quoted span). -/
def splitTopLevel (l : List Char) : List (List Char) :=
  splitTopGo none l

/-- The parser as claim C5 literally describes it: matching-brace strip and
top-level comma split; the per-segment steps coincide with the code's. -/
def parse_clean_config_spec (s : List Char) : CleanConfig :=
  (splitTopLevel (trimChars (stripBracesMatching (trimChars s)))).foldl
    applyKV CleanConfig.empty

/-! ### Amended spec-side parser (claim C5 amended)

The amended description: after trimming, a leading `{` is stripped together
with a trailing `}` when both are present; a trailing `}` alone is also
stripped; a leading `{` alone is kept.  The comma split is not quote-aware:
it splits at every comma.  Each segment is split at its first `=`, key and
value are trimmed, and one matching pair of surrounding quotes is stripped
from the value without un-escaping. -/

/-- Brace stripping as the amended claim describes it. -/
def stripBracesAmended (t : List Char) : List Char :=
  if startsWithChar '{' t then
    if endsWithChar '}' (t.drop 1) then ((t.drop 1).dropLast) else t
  else if endsWithChar '}' t then t.dropLast else t

/-- Parse one comma-separated segment into a trimmed key and an unquoted
value; segments without `=` are discarded. -/
def parseSegment (part : List Char) : Option (List Char × List Char) :=
  (splitOnceChar '=' (trimChars part)).map
    (fun kv => (trimChars kv.1, remove_quotes (trimChars kv.2)))

/-- Record a parsed key/value pair: `cmd` and `dir` keys assign the matching
field (a later pair overwrites an earlier one); other keys are ignored. -/
def assignKV (cfg : CleanConfig) (kv : List Char × List Char) : CleanConfig :=
  if kv.1 = ['c', 'm', 'd'] then { cfg with command := some kv.2 }
  else if kv.1 = ['d', 'i', 'r'] then { cfg with dir := some kv.2 }
  else cfg

/-- The parser as the amended claim C5 describes it. -/
def parse_clean_config_amended (s : List Char) : CleanConfig :=
  (((splitOnChar ',' (trimChars (stripBracesAmended (trimChars s)))).filterMap
      parseSegment).foldl assignKV CleanConfig.empty)

/-! ### The external configuration tool (`c2rust-config`)

The tool itself is not part of this repository; `config_helper.rs` only
invokes it.  Its storage and output format are modelled from the spec
(§4.3/§6): `config --make --feature F --set KEY VALUE` persists one field,
and `config --make --feature F --list clean` prints the combined record in
the inline form documented in `config_helper.rs`:
`{ cmd = "make clean", dir = "build" }`. -/

/-- Modelled from the spec: the external tool's store, a map from feature
and key to a stored value. -/
def ToolStore : Type := String → String → Option (List Char)

/-- Modelled from the spec: one `--set key value` call under feature `f`. -/
def toolSet (st : ToolStore) (f k : String) (v : List Char) : ToolStore :=
  fun f' k' => if f' = f ∧ k' = k then some v else st f' k'

/-- Modelled from the spec: the inline record the tool prints for the
combined `clean` key when both fields are present, with values wrapped in
quote character `q` (the tool may use double or single quotes).  The shape
is `{ cmd = <q>C<q>, dir = <q>D<q> }`. -/
def renderCleanRecord (q : Char) (dir cmd : List Char) : List Char :=
  (['{', ' '] ++
    (((['c', 'm', 'd', ' ', '=', ' ', q] ++ cmd) ++ [q]) ++
      ([','] ++ (([' ', 'd', 'i', 'r', ' ', '=', ' ', q] ++ dir) ++ [q]))) ++
    [' ']) ++ ['}']

/-- Modelled from the spec: the stdout of `--list clean` under feature `f`,
or `none` when the key is absent (the tool exits non-zero). -/
def toolListClean (q : Char) (st : ToolStore) (f : String) :
    Option (List Char) :=
  match st f "clean.cmd", st f "clean.dir" with
  | some c, some d => some (renderCleanRecord q d c)
  | some c, none =>
    some ((['{', ' '] ++ ((['c', 'm', 'd', ' ', '=', ' ', q] ++ c) ++ [q]) ++
      [' ']) ++ ['}'])
  | none, some d =>
    some ((['{', ' '] ++ ((['d', 'i', 'r', ' ', '=', ' ', q] ++ d) ++ [q]) ++
      [' ']) ++ ['}'])
  | none, none => none

/-- Embedding of `config_helper::save_config`'s effect on the tool's store:
one `--set clean.dir` call followed by one `--set clean.cmd` call under the
given feature (the subprocess plumbing is elided; both calls succeed). -/
def save_config_model (st : ToolStore) (f : String) (dir cmd : List Char) :
    ToolStore :=
  toolSet (toolSet st f "clean.dir" dir) f "clean.cmd" cmd

/-- Embedding of `config_helper::read_config` over the modelled tool: a
missing key (non-zero exit) or empty output yields the default (empty)
configuration; otherwise the trimmed output is parsed. -/
def read_config_model (q : Char) (st : ToolStore) (f : String) : CleanConfig :=
  match toolListClean q st f with
  | none => CleanConfig.empty
  | some out =>
    let t := trimChars out
    if t.isEmpty then CleanConfig.empty else parse_clean_config t

/-! ### `error.rs`: the error type -/

/-- Embedding of `error::CleanError` (the variants of the enum in
`error.rs`; detail strings are carried verbatim). -/
inductive CleanError where
  | ConfigToolNotFound
  | CommandExecutionFailed (msg : String)
  | ConfigSaveFailed (msg : String)
  | IoError (msg : String)
deriving DecidableEq

/-! ### Subprocess outcomes -/

/-- The observed outcome of a spawned subprocess: its exit code (`none` when
terminated by a signal) and captured output streams. -/
structure ProcOutput where
  exitCode : Option Int
  stdout : String
  stderr : String
deriving DecidableEq

/-- Embedding of Rust `ExitStatus::success()`. -/
def procSuccess (o : ProcOutput) : Bool :=
  o.exitCode = some 0

/-- Embedding of `config_helper::check_c2rust_config_exists`: the `--help`
liveness probe must spawn and exit 0; otherwise `ConfigToolNotFound`.  The
probe's outcome is passed in (`none` = spawning failed). -/
def check_c2rust_config_exists (helpResult : Option ProcOutput) :
    Except CleanError Unit :=
  match helpResult with
  | some o => if procSuccess o then Except.ok () else
      Except.error CleanError.ConfigToolNotFound
  | none => Except.error CleanError.ConfigToolNotFound

/-! ### `executor.rs` -/

/-- Embedding of `executor::execute_command`: rejects an empty command
sequence, fails with `CommandExecutionFailed` when spawning fails
(`spawn = none`) or the child does not exit 0, and succeeds otherwise. -/
def execute_command (command : List String) (spawn : Option ProcOutput) :
    Except CleanError Unit :=
  if command.isEmpty then
    Except.error (CleanError.CommandExecutionFailed "No command provided")
  else
    match spawn with
    | none => Except.error
        (CleanError.CommandExecutionFailed "Failed to execute command")
    | some o =>
      if procSuccess o then Except.ok ()
      else Except.error
        (CleanError.CommandExecutionFailed "Command failed with non-zero exit code")

/-- Embedding of `config_helper::save_config`'s control flow: the
`--set clean.dir` call runs first and its failure short-circuits the
`--set clean.cmd` call; a spawn failure or non-zero exit of either call is a
`ConfigSaveFailed`. -/
def save_config (saveDirResult saveCmdResult : Option ProcOutput) :
    Except CleanError Unit :=
  match saveDirResult with
  | none => Except.error
      (CleanError.ConfigSaveFailed "Failed to execute c2rust-config")
  | some o =>
    if procSuccess o then
      match saveCmdResult with
      | none => Except.error
          (CleanError.ConfigSaveFailed "Failed to execute c2rust-config")
      | some o2 =>
        if procSuccess o2 then Except.ok ()
        else Except.error (CleanError.ConfigSaveFailed "Failed to save clean command")
    else Except.error (CleanError.ConfigSaveFailed "Failed to save clean.dir")

/-! ### `main.rs`: project-root resolution -/

/-- The marker names `find_project_root` probes for, from `main.rs`. -/
def rootMarkers : List String := [".git", "Cargo.toml", ".c2rust"]

/-- Whether any recognized marker exists in directory `p`.  Paths are lists
of segments ordered deepest first, so `m :: p` is the path `p/m` and the
ambient filesystem is the existence predicate `ex`. -/
def hasAnyMarker (ex : List String → Bool) (p : List String) : Bool :=
  rootMarkers.any (fun m => ex (m :: p))

/-- The loop of `main.rs`'s `find_project_root`: check the current directory
for a marker, else move to the parent; at the filesystem root (`[]`, whose
parent is `none`) fall back to the start directory. -/
def findRootGo (ex : List String → Bool) (start : List String) :
    List String → List String
  | [] => if hasAnyMarker ex [] then [] else start
  | x :: rest =>
    if hasAnyMarker ex (x :: rest) then x :: rest else findRootGo ex start rest

/-- Embedding of `main.rs`'s `find_project_root`; as in the source it
returns a `Result` but every path returns `Ok`. -/
def find_project_root (ex : List String → Bool) (start : List String) :
    Except CleanError (List String) :=
  Except.ok (findRootGo ex start start)

/-- The ancestors of a directory, the directory itself first and the
filesystem root `[]` last (spec-side notion used to state claim C6). -/
def ancestorsOf : List String → List (List String)
  | [] => [[]]
  | x :: xs => (x :: xs) :: ancestorsOf xs

/-! ### `main.rs`: the relative clean directory

Embedding of the inline calculation in `run` (main.rs:80-91):
`current_dir.strip_prefix(&project_root)` succeeds iff the root's segments
are a prefix of the current directory's segments (both here in root-first
order); on success an empty remainder becomes `"."`, otherwise the segments
are joined with `/`; on failure a warning is printed and `"."` is used.  The
returned Bool records whether the warning was emitted. -/

/-- The relative clean directory and whether the not-under-root warning was
emitted. -/
def relative_clean_dir (root current : List String) : String × Bool :=
  if root.isPrefixOf current then
    let p := current.drop root.length
    (if p.isEmpty then "." else String.intercalate "/" p, false)
  else (".", true)

/-! ### `main.rs`: the `run` orchestration and `main`'s exit code -/

/-- The observable steps of one invocation, in the order `run` performs
them. -/
inductive Event where
  | toolCheck
  | rootResolve
  | relCalc
  | userCmd
  | configSave
  | autoCommit
deriving DecidableEq

/-- The ambient world of one invocation: outcomes of every external
interaction `run` performs, plus the invocation's inputs. -/
structure RunEnv where
  /-- Outcome of the `c2rust-config --help` probe. -/
  helpResult : Option ProcOutput
  /-- The optional `--feature` argument. -/
  feature : Option String
  /-- The user's clean command tokens. -/
  cleanCmd : List String
  /-- The current working directory, deepest segment first. -/
  currentDir : List String
  /-- Filesystem existence of paths (deepest segment first). -/
  pathExists : List String → Bool
  /-- Outcome of spawning the user's command. -/
  spawnResult : Option ProcOutput
  /-- Outcome of the `--set clean.dir` call. -/
  saveDirResult : Option ProcOutput
  /-- Outcome of the `--set clean.cmd` call. -/
  saveCmdResult : Option ProcOutput
  /-- Modelled from the spec: outcome of `git_helper::auto_commit_if_modified`,
  the best-effort change-tracker step.  `main.rs` calls this function but its
  body is absent from `src` (git_helper.rs ships `check_and_commit` from an
  earlier iteration), so only its outcome is abstracted here; the call site's
  error handling in `run` is what the claims are about. -/
  autoCommitResult : Except CleanError Unit

/-- The outcome of one `run` invocation: its result, the ordered steps that
were performed, and the values the path steps computed. -/
structure RunOutcome where
  result : Except CleanError Unit
  trace : List Event
  projectRoot : Option (List String)
  cleanDirRelative : Option String
  featureName : Option String

/-- Embedding of `main.rs`'s `run`: the preflight tool check, then (pure)
root resolution and relative-path calculation, then the user's command, then
the configuration save, then the auto-commit, each propagating its error
with `?` exactly as in the source. -/
def runTrace (env : RunEnv) : RunOutcome :=
  match check_c2rust_config_exists env.helpResult with
  | Except.error e => ⟨Except.error e, [Event.toolCheck], none, none, none⟩
  | Except.ok _ =>
    let feature := (env.feature).getD "default"
    let root := findRootGo (hasAnyMarker env.pathExists) env.currentDir env.currentDir
    let rel := (relative_clean_dir root.reverse env.currentDir.reverse).1
    let tr0 := [Event.toolCheck, Event.rootResolve, Event.relCalc]
    match execute_command env.cleanCmd env.spawnResult with
    | Except.error e =>
      ⟨Except.error e, tr0 ++ [Event.userCmd], some root, some rel,
        some feature⟩
    | Except.ok _ =>
      match save_config env.saveDirResult env.saveCmdResult with
      | Except.error e =>
        ⟨Except.error e, tr0 ++ [Event.userCmd, Event.configSave], some root,
          some rel, some feature⟩
      | Except.ok _ =>
        match env.autoCommitResult with
        | Except.error e =>
          ⟨Except.error e,
            tr0 ++ [Event.userCmd, Event.configSave, Event.autoCommit],
            some root, some rel, some feature⟩
        | Except.ok _ =>
          ⟨Except.ok (),
            tr0 ++ [Event.userCmd, Event.configSave, Event.autoCommit],
            some root, some rel, some feature⟩

/-- Embedding of `main.rs`'s `main`: exit code 0 when `run` returns `Ok`,
exit code 1 when it returns any error. -/
def mainExitCode (env : RunEnv) : Nat :=
  match (runTrace env).result with
  | Except.ok _ => 0
  | Except.error _ => 1

/-- Position of the first occurrence of an event in a trace (the trace's
length when absent). -/
def idxOfEvent (e : Event) : List Event → Nat
  | [] => 0
  | x :: xs => if x = e then 0 else idxOfEvent e xs + 1

/-! ### `git_helper.rs`: the change tracker

`check_and_commit` works on the `.c2rust` directory under the project root.
The store's observable state is abstracted as: whether the directory exists,
whether it contains files (besides the revision store itself), whether a
revision-tracked store can be opened there, whether a status scan reports
modifications, and how many revisions exist.  The fallible git operations
are modelled on their success path (their I/O failure modes do not decide
any claim). -/

/-- Abstract state of the persisted-configuration storage area. -/
structure StoreState where
  dirExists : Bool
  hasFiles : Bool
  repoExists : Bool
  dirty : Bool
  commits : Nat
deriving DecidableEq

/-- Embedding of `git_helper::ensure_git_repo`: creates the `.c2rust`
directory when missing, opens the existing repository when possible, and
otherwise initializes a fresh one — in which every pre-existing file shows
up as an untracked (dirty) entry in the next status scan. -/
def ensure_git_repo (s : StoreState) : StoreState :=
  let s1 := if s.dirExists then s else { s with dirExists := true }
  if s1.repoExists then s1
  else { s1 with repoExists := true, dirty := s1.hasFiles }

/-- Embedding of `git_helper::has_modifications`: whether the status scan
(untracked included, ignored excluded) reports any entry. -/
def has_modifications (s : StoreState) : Bool :=
  s.dirty

/-- Embedding of `git_helper::commit_changes`: stage everything and create
one revision (with the synthetic `c2rust-clean` identity and an
auto-generated message); afterwards the status scan is clean. -/
def commit_changes (s : StoreState) : StoreState :=
  { s with dirty := false, commits := s.commits + 1 }

/-- Embedding of `git_helper::check_and_commit`: ensure the repository
exists, then commit iff the status scan reports modifications. -/
def check_and_commit (s : StoreState) : StoreState :=
  let r := ensure_git_repo s
  if has_modifications r then commit_changes r else r

/-! ### Concrete invocations and states used by counterexamples and
witnesses -/

/-- A subprocess outcome that exited 0. -/
def okProc : ProcOutput := ⟨some 0, "", ""⟩

/-- An invocation in which every external interaction succeeds. -/
def envAllOk : RunEnv :=
  ⟨some okProc, none, ["echo"], [], fun _ => false, some okProc, some okProc,
    some okProc, Except.ok ()⟩

/-- An invocation in which everything succeeds except the auto-commit step. -/
def envAutoCommitFails : RunEnv :=
  { envAllOk with autoCommitResult :=
      Except.error (CleanError.IoError "could not resolve commit author identity") }

/-- An invocation in which the external configuration tool cannot be
spawned. -/
def envToolMissing : RunEnv :=
  { envAllOk with helpResult := none }

/-- An invocation in which the user's command exits with code 2. -/
def envUserCmdFails : RunEnv :=
  { envAllOk with spawnResult := some ⟨some 2, "", ""⟩ }

/-- A storage state with no persisted-configuration directory at all. -/
def noStoreState : StoreState := ⟨false, false, false, false, 0⟩

/-- A storage state with an existing revision store and a clean status scan. -/
def cleanRepoState : StoreState := ⟨true, true, true, false, 5⟩

/-- A storage state with an existing revision store and pending
modifications. -/
def dirtyRepoState : StoreState := ⟨true, true, true, true, 0⟩

/-- The empty external-tool store. -/
def emptyToolStore : ToolStore := fun _ _ => none

/-- A command value containing a comma, for the round-trip counterexample. -/
def commaCmd : List Char := ['a', ',', ' ', 'b']

/-- A directory value for the round-trip counterexample. -/
def buildDir : List Char := ['b', 'u', 'i', 'l', 'd']

/-- A command value with an embedded `=`, for the round-trip witness. -/
def savedCmd : List Char := ['m', 'a', 'k', 'e', ' ', 'V', '=', '1']

/-- The parser counterexample input: `cmd = "a, b" }` — a quoted value with
an embedded comma and a trailing close brace without an opening one. -/
def c5Input : List Char :=
  ['c', 'm', 'd', ' ', '=', ' ', dq, 'a', ',', ' ', 'b', dq, ' ', '}']

/-- The `cmd = <q>C<q>` segment of the rendered record, written as key,
`=`, and value. -/
def recSeg1 (q : Char) (cmd : List Char) : List Char :=
  ['c', 'm', 'd', ' '] ++ '=' :: (' ' :: ((q :: cmd) ++ [q]))

/-- The `dir = <q>D<q>` part of the second segment. -/
def recSeg2core (q : Char) (dir : List Char) : List Char :=
  ['d', 'i', 'r', ' '] ++ '=' :: (' ' :: ((q :: dir) ++ [q]))

/-- The ` dir = <q>D<q>` segment (with the space following the comma). -/
def recSeg2 (q : Char) (dir : List Char) : List Char :=
  ' ' :: recSeg2core q dir

/-- The brace-stripped content of the rendered record. -/
def recInner (q : Char) (dir cmd : List Char) : List Char :=
  recSeg1 q cmd ++ ',' :: recSeg2 q dir

/-! ## Helper lemmas -/

theorem trimLeft_cons_not_ws {x : Char} (xs : List Char)
    (h : isWsChar x = false) : trimLeft (x :: xs) = x :: xs := by
  simp [trimLeft, List.dropWhile_cons, h]

theorem trimLeft_cons_space (xs : List Char) :
    trimLeft (' ' :: xs) = trimLeft xs := by
  simp [trimLeft, List.dropWhile_cons, isWsChar]

theorem trimRight_append_not_ws {b : Char} (l : List Char)
    (h : isWsChar b = false) : trimRight (l ++ [b]) = l ++ [b] := by
  simp [trimRight, List.dropWhile_cons, h]

theorem trimRight_append_space (l : List Char) :
    trimRight (l ++ [' ']) = trimRight l := by
  simp [trimRight, List.dropWhile_cons, isWsChar]

theorem trimChars_bounded {a b : Char} (m : List Char)
    (ha : isWsChar a = false) (hb : isWsChar b = false) :
    trimChars ((a :: m) ++ [b]) = (a :: m) ++ [b] := by
  rw [trimChars, List.cons_append, trimLeft_cons_not_ws (m ++ [b]) ha,
    ← List.cons_append, trimRight_append_not_ws (a :: m) hb]

theorem stripSuffixChar_append_self (c : Char) (l : List Char) :
    stripSuffixChar c (l ++ [c]) = some l := by
  simp [stripSuffixChar, stripPrefixChar, List.reverse_append]

theorem splitOnChar_of_not_mem {c : Char} {l : List Char} (h : c ∉ l) :
    splitOnChar c l = [l] := by
  induction l with
  | nil => rfl
  | cons x xs ih =>
    have hx : ¬x = c := fun hxc => h (hxc ▸ List.mem_cons_self x xs)
    have hxs : c ∉ xs := fun hm => h (List.mem_cons_of_mem x hm)
    simp [splitOnChar, hx, ih hxs]

theorem splitOnChar_append {c : Char} {l₁ : List Char} (l₂ : List Char)
    (h : c ∉ l₁) : splitOnChar c (l₁ ++ c :: l₂) = l₁ :: splitOnChar c l₂ := by
  induction l₁ with
  | nil => simp [splitOnChar]
  | cons x xs ih =>
    have hx : ¬x = c := fun hxc => h (hxc ▸ List.mem_cons_self x xs)
    have hxs : c ∉ xs := fun hm => h (List.mem_cons_of_mem x hm)
    have := ih hxs
    simp [splitOnChar, hx, this]

theorem splitOnceChar_append {c : Char} {k : List Char} (v : List Char)
    (h : c ∉ k) : splitOnceChar c (k ++ c :: v) = some (k, v) := by
  induction k with
  | nil => simp [splitOnceChar]
  | cons x xs ih =>
    have hx : ¬x = c := fun hxc => h (hxc ▸ List.mem_cons_self x xs)
    have hxs : c ∉ xs := fun hm => h (List.mem_cons_of_mem x hm)
    simp [splitOnceChar, hx, ih hxs]

theorem remove_quotes_wrap {q : Char} (m : List Char)
    (hq : q = dq ∨ q = sq) : remove_quotes ((q :: m) ++ [q]) = m := by
  rcases hq with hq | hq <;> subst hq <;>
    simp [remove_quotes, startsWithChar, endsWithChar, List.reverse_append,
      dq, sq, Nat.succ_le_succ, List.length_append]

theorem isPrefixOf_self (l : List String) : l.isPrefixOf l = true := by
  induction l with
  | nil => rfl
  | cons x xs ih => simp [List.isPrefixOf, ih]

theorem findRootGo_eq (ex : List String → Bool) (start : List String)
    (p : List String) :
    findRootGo ex start p =
      ((ancestorsOf p).find? (hasAnyMarker ex)).getD start := by
  induction p with
  | nil =>
    by_cases h : hasAnyMarker ex [] <;>
      simp [findRootGo, ancestorsOf, List.find?, h]
  | cons x xs ih =>
    by_cases h : hasAnyMarker ex (x :: xs) <;>
      simp [findRootGo, ancestorsOf, List.find?, h, ih]

/-! ## Claim theorems -/

/-- Claim C6 (confirmed): for every filesystem and starting directory, root
resolution never fails (always `Except.ok`) and returns the first directory,
among the ancestors of the start directory ordered closest first (the start
directory itself first, the filesystem root last), that contains any
recognized marker — so the closest marked ancestor wins — and falls back to
the start directory itself when no ancestor contains a marker. -/
theorem c6_find_project_root_correct (ex : List String → Bool)
    (start : List String) :
    find_project_root ex start =
      Except.ok (((ancestorsOf start).find? (hasAnyMarker ex)).getD start) := by
  unfold find_project_root
  rw [findRootGo_eq]

/-- Claim C7 (confirmed): when the current directory is not a descendant of
the root (the root's segments are not a prefix of its segments), the
relative-path calculation in `run` does not fail: it emits the warning and
returns the sentinel `"."`; and for the root itself it returns `"."` with no
warning. -/
theorem c7_relative_dir_fallback (r c : List String)
    (h : r.isPrefixOf c = false) :
    relative_clean_dir r c = (".", true) ∧
      relative_clean_dir r r = (".", false) := by
  constructor
  · simp [relative_clean_dir, h]
  · simp [relative_clean_dir, isPrefixOf_self, List.drop_length]

/-- Witness for C7 at a concrete root and directory. -/
theorem c7_relative_dir_fallback_witness :
    relative_clean_dir ["a"] ["b"] = (".", true) ∧
      relative_clean_dir ["a"] ["a"] = (".", false) :=
  c7_relative_dir_fallback ["a"] ["b"] (by decide)

/-- Claim C3 (corrected), counterexample: on the NoStore state (the
persisted-configuration directory does not exist), `check_and_commit` is not
action-free — it creates the directory and initializes a revision-tracked
store there, contrary to the claim's "does not create the directory and does
not initialize a new revision-tracked store". -/
theorem c3_counterexample_nostore_creates_store :
    noStoreState.dirExists = false ∧ noStoreState.repoExists = false ∧
      (check_and_commit noStoreState).dirExists = true ∧
      (check_and_commit noStoreState).repoExists = true := by
  decide

/-- Claim C3 (amended): when the directory does not exist or cannot be
opened as a revision-tracked store, the change tracker still succeeds, but
it creates the directory if missing and initializes a fresh revision-tracked
store; it then creates a revision exactly when the directory already
contained files (which the fresh store reports as modifications) and none
when the directory was absent or empty; afterwards the store is clean. -/
theorem c3_check_path_amended (s : StoreState)
    (hwf : s.dirExists = false → s.hasFiles = false)
    (hrepo : s.repoExists = false) :
    (check_and_commit s).dirExists = true ∧
      (check_and_commit s).repoExists = true ∧
      (check_and_commit s).dirty = false ∧
      (check_and_commit s).commits =
        s.commits + (if s.hasFiles then 1 else 0) := by
  obtain ⟨de, hf, re, dy, n⟩ := s
  cases hrepo
  cases de <;> cases hf <;>
    simp_all [check_and_commit, ensure_git_repo, has_modifications,
      commit_changes]

/-- Witness for the amended C3 at the concrete NoStore state. -/
theorem c3_check_path_amended_witness :
    (check_and_commit noStoreState).dirExists = true ∧
      (check_and_commit noStoreState).repoExists = true ∧
      (check_and_commit noStoreState).dirty = false ∧
      (check_and_commit noStoreState).commits =
        noStoreState.commits + (if noStoreState.hasFiles then 1 else 0) :=
  c3_check_path_amended noStoreState (fun _ => rfl) rfl

/-- Claim C9 (corrected), counterexample: on a state whose store is already
clean, calling the auto-commit operation twice creates zero new revisions,
not "exactly one new revision in total" as the universally-quantified claim
states. -/
theorem c9_counterexample_clean_store_two_calls :
    (check_and_commit (check_and_commit cleanRepoState)).commits =
        cleanRepoState.commits ∧
      ¬(check_and_commit (check_and_commit cleanRepoState)).commits =
        cleanRepoState.commits + 1 := by
  decide

/-- Claim C9 (amended): the operation is idempotent — for every well-formed
storage state, the second of two successive calls (no intervening
filesystem change) finds no modifications and changes nothing, and the two
calls together create at most one revision: exactly one when the first call
found modifications (a dirty store, or store-initialization over
pre-existing files) and none otherwise. -/
theorem c9_idempotent_amended (s : StoreState)
    (hwf : s.dirExists = false → s.hasFiles = false ∧ s.repoExists = false) :
    check_and_commit (check_and_commit s) = check_and_commit s ∧
      has_modifications (ensure_git_repo (check_and_commit s)) = false ∧
      (check_and_commit s).commits =
        s.commits +
          (if (if s.repoExists then s.dirty else s.hasFiles) then 1 else 0) := by
  obtain ⟨de, hf, re, dy, n⟩ := s
  cases de <;> cases hf <;> cases re <;> cases dy <;>
    simp_all [check_and_commit, ensure_git_repo, has_modifications,
      commit_changes]

/-- Witness for the amended C9 at a concrete dirty store. -/
theorem c9_idempotent_amended_witness :
    check_and_commit (check_and_commit dirtyRepoState) =
        check_and_commit dirtyRepoState ∧
      has_modifications (ensure_git_repo (check_and_commit dirtyRepoState)) =
        false ∧
      (check_and_commit dirtyRepoState).commits =
        dirtyRepoState.commits +
          (if (if dirtyRepoState.repoExists then dirtyRepoState.dirty
              else dirtyRepoState.hasFiles) then 1 else 0) :=
  c9_idempotent_amended dirtyRepoState (by decide)

/-- Claim C1 (code bug): in an invocation where the tool check, the user's
command and both configuration saves succeed but the auto-commit step fails,
`run` propagates the auto-commit error with `?` (main.rs:107), so `main`
reports the error and the process exits with code 1 — not the claimed
warning-only behaviour with exit code 0 (which the repository's own
integration test `test_git_auto_commit_failure_is_non_fatal` also expects). -/
theorem c1_auto_commit_error_propagates :
    (runTrace envAutoCommitFails).result =
        Except.error
          (CleanError.IoError "could not resolve commit author identity") ∧
      mainExitCode envAutoCommitFails = 1 :=
  ⟨rfl, rfl⟩

/-- Claim C2 (corrected), counterexample: in a fully successful invocation
the user's command step strictly precedes the configuration-save step in the
performed-step trace, contradicting the claimed order (configuration write
before the user's command). -/
theorem c2_counterexample_save_after_user_cmd :
    Event.userCmd ∈ (runTrace envAllOk).trace ∧
      Event.configSave ∈ (runTrace envAllOk).trace ∧
      idxOfEvent Event.userCmd (runTrace envAllOk).trace <
        idxOfEvent Event.configSave (runTrace envAllOk).trace := by
  decide

/-- Claim C2 (amended): in every invocation whose result is success the
steps occur in the order: tool preflight check, project-root resolution,
relative-path calculation, execution of the user's command, configuration
write, change-tracker auto-commit — in particular the configuration write
happens after (not before) the user's command. -/
theorem c2_step_order_amended (env : RunEnv)
    (h : (runTrace env).result = Except.ok ()) :
    (runTrace env).trace =
      [Event.toolCheck, Event.rootResolve, Event.relCalc, Event.userCmd,
        Event.configSave, Event.autoCommit] := by
  unfold runTrace at h ⊢
  cases hc : check_c2rust_config_exists env.helpResult with
  | error e => rw [hc] at h; simp at h
  | ok u =>
    cases u
    cases he : execute_command env.cleanCmd env.spawnResult with
    | error e => rw [hc, he] at h; simp at h
    | ok u =>
      cases u
      cases hs : save_config env.saveDirResult env.saveCmdResult with
      | error e => rw [hc, he, hs] at h; simp at h
      | ok u =>
        cases u
        cases ha : env.autoCommitResult with
        | error e => rw [hc, he, hs, ha] at h; simp at h
        | ok u => cases u; simp

/-- Witness for the amended C2 on a fully successful invocation. -/
theorem c2_step_order_amended_witness :
    (runTrace envAllOk).trace =
      [Event.toolCheck, Event.rootResolve, Event.relCalc, Event.userCmd,
        Event.configSave, Event.autoCommit] :=
  c2_step_order_amended envAllOk rfl

/-- Claim C8 (confirmed): when the external configuration tool cannot be
spawned or its `--help` liveness probe does not exit 0, the invocation fails
with `ConfigToolNotFound` and neither the user's command nor any
configuration write is ever performed. -/
theorem c8_tool_not_found_aborts_early (env : RunEnv)
    (h : env.helpResult = none ∨
      ∃ o, env.helpResult = some o ∧ ¬o.exitCode = some 0) :
    (runTrace env).result = Except.error CleanError.ConfigToolNotFound ∧
      Event.userCmd ∉ (runTrace env).trace ∧
      Event.configSave ∉ (runTrace env).trace := by
  have hc : check_c2rust_config_exists env.helpResult =
      Except.error CleanError.ConfigToolNotFound := by
    rcases h with h | ⟨o, ho, hcode⟩
    · simp [check_c2rust_config_exists, h]
    · simp [check_c2rust_config_exists, ho, procSuccess, hcode]
  unfold runTrace
  rw [hc]
  simp

/-- Witness for C8 with an unlocatable tool binary. -/
theorem c8_tool_not_found_aborts_early_witness :
    (runTrace envToolMissing).result =
        Except.error CleanError.ConfigToolNotFound ∧
      Event.userCmd ∉ (runTrace envToolMissing).trace ∧
      Event.configSave ∉ (runTrace envToolMissing).trace :=
  c8_tool_not_found_aborts_early envToolMissing (Or.inl rfl)

/-- Claim C10 (confirmed): when the user's command fails to spawn or does
not exit 0, the invocation aborts with a `CommandExecutionFailed` error and
neither the configuration save nor the auto-commit step is ever attempted,
so the persisted configuration is left unchanged by the invocation. -/
theorem c10_command_failure_aborts (env : RunEnv)
    (hok : ∃ o, env.helpResult = some o ∧ o.exitCode = some 0)
    (hfail : env.spawnResult = none ∨
      ∃ o, env.spawnResult = some o ∧ ¬o.exitCode = some 0) :
    (∃ msg, (runTrace env).result =
        Except.error (CleanError.CommandExecutionFailed msg)) ∧
      Event.configSave ∉ (runTrace env).trace ∧
      Event.autoCommit ∉ (runTrace env).trace := by
  obtain ⟨o, ho, hcode⟩ := hok
  have hc : check_c2rust_config_exists env.helpResult = Except.ok () := by
    simp [check_c2rust_config_exists, ho, procSuccess, hcode]
  have he : ∃ msg, execute_command env.cleanCmd env.spawnResult =
      Except.error (CleanError.CommandExecutionFailed msg) := by
    by_cases hemp : env.cleanCmd.isEmpty
    · exact ⟨"No command provided", by simp [execute_command, hemp]⟩
    · rcases hfail with hnone | ⟨o2, ho2, hcode2⟩
      · exact ⟨"Failed to execute command", by simp [execute_command, hemp, hnone]⟩
      · exact ⟨"Command failed with non-zero exit code",
          by simp [execute_command, hemp, ho2, procSuccess, hcode2]⟩
  obtain ⟨msg, he⟩ := he
  refine ⟨⟨msg, ?_⟩, ?_, ?_⟩ <;>
    · unfold runTrace
      rw [hc, he]
      all_goals simp

/-- Witness for C10 with a user command exiting non-zero. -/
theorem c10_command_failure_aborts_witness :
    (∃ msg, (runTrace envUserCmdFails).result =
        Except.error (CleanError.CommandExecutionFailed msg)) ∧
      Event.configSave ∉ (runTrace envUserCmdFails).trace ∧
      Event.autoCommit ∉ (runTrace envUserCmdFails).trace :=
  c10_command_failure_aborts envUserCmdFails ⟨okProc, rfl, rfl⟩
    (Or.inr ⟨⟨some 2, "", ""⟩, rfl, by decide⟩)

/-! ## Lemmas for the round-trip and parser-step claims -/

theorem trimLeft_eq_self {l : List Char} {x : Char} (hx : l.head? = some x)
    (h : isWsChar x = false) : trimLeft l = l := by
  cases l with
  | nil => simp at hx
  | cons a as =>
    have ha : a = x := by simpa using hx
    subst ha
    exact trimLeft_cons_not_ws as h

theorem trimRight_eq_self {l : List Char} {b : Char} (hb : l.getLast? = some b)
    (h : isWsChar b = false) : trimRight l = l := by
  have hrevh : l.reverse.head? = some b := by rw [List.head?_reverse]; exact hb
  cases hr : l.reverse with
  | nil => rw [hr] at hrevh; simp at hrevh
  | cons y ys =>
    have hy : y = b := by rw [hr] at hrevh; simpa using hrevh
    subst hy
    unfold trimRight
    rw [hr, List.dropWhile_cons, h]
    simp only [Bool.false_eq_true, if_false]
    rw [← hr, List.reverse_reverse]

theorem render_shape (q : Char) (dir cmd : List Char) :
    renderCleanRecord q dir cmd =
      ('{' :: ((' ' :: recInner q dir cmd) ++ [' '])) ++ ['}'] := by
  simp [renderCleanRecord, recInner, recSeg1, recSeg2, recSeg2core]

theorem trim_render (q : Char) (dir cmd : List Char) :
    trimChars (renderCleanRecord q dir cmd) = renderCleanRecord q dir cmd := by
  rw [render_shape]
  exact trimChars_bounded _ (by decide) (by decide)

theorem applyKV_recSeg1 (cfg : CleanConfig) {q : Char} (cmd : List Char)
    (hq : q = dq ∨ q = sq) :
    applyKV cfg (recSeg1 q cmd) = { cfg with command := some cmd } := by
  have hqws : isWsChar q = false := by rcases hq with h | h <;> subst h <;> decide
  have htrim : trimChars (recSeg1 q cmd) = recSeg1 q cmd := by
    unfold trimChars
    rw [trimLeft_eq_self (show (recSeg1 q cmd).head? = some 'c' by
      simp [recSeg1]) (by decide)]
    exact trimRight_eq_self (show (recSeg1 q cmd).getLast? = some q by
      rw [← List.head?_reverse]; simp [recSeg1]) hqws
  have hsplit : splitOnceChar '=' (recSeg1 q cmd) =
      some (['c', 'm', 'd', ' '], ' ' :: ((q :: cmd) ++ [q])) :=
    splitOnceChar_append _ (by decide)
  have hv : trimChars (' ' :: ((q :: cmd) ++ [q])) = (q :: cmd) ++ [q] := by
    unfold trimChars
    rw [trimLeft_cons_space]
    rw [trimLeft_eq_self (show ((q :: cmd) ++ [q]).head? = some q by simp) hqws]
    exact trimRight_eq_self (show ((q :: cmd) ++ [q]).getLast? = some q by
      rw [← List.head?_reverse]; simp) hqws
  unfold applyKV
  rw [htrim, hsplit]
  simp only [hv, remove_quotes_wrap cmd hq]
  have hkey : trimChars ['c', 'm', 'd', ' '] = ['c', 'm', 'd'] := by decide
  simp [hkey]

theorem applyKV_recSeg2 (cfg : CleanConfig) {q : Char} (dir : List Char)
    (hq : q = dq ∨ q = sq) :
    applyKV cfg (recSeg2 q dir) = { cfg with dir := some dir } := by
  have hqws : isWsChar q = false := by rcases hq with h | h <;> subst h <;> decide
  have htrim : trimChars (recSeg2 q dir) = recSeg2core q dir := by
    unfold trimChars recSeg2
    rw [trimLeft_cons_space]
    rw [trimLeft_eq_self (show (recSeg2core q dir).head? = some 'd' by
      simp [recSeg2core]) (by decide)]
    exact trimRight_eq_self (show (recSeg2core q dir).getLast? = some q by
      rw [← List.head?_reverse]; simp [recSeg2core]) hqws
  have hsplit : splitOnceChar '=' (recSeg2core q dir) =
      some (['d', 'i', 'r', ' '], ' ' :: ((q :: dir) ++ [q])) :=
    splitOnceChar_append _ (by decide)
  have hv : trimChars (' ' :: ((q :: dir) ++ [q])) = (q :: dir) ++ [q] := by
    unfold trimChars
    rw [trimLeft_cons_space]
    rw [trimLeft_eq_self (show ((q :: dir) ++ [q]).head? = some q by simp) hqws]
    exact trimRight_eq_self (show ((q :: dir) ++ [q]).getLast? = some q by
      rw [← List.head?_reverse]; simp) hqws
  unfold applyKV
  rw [htrim, hsplit]
  simp only [hv, remove_quotes_wrap dir hq]
  have hkey : trimChars ['d', 'i', 'r', ' '] = ['d', 'i', 'r'] := by decide
  simp [hkey]

theorem parse_render_record {q : Char} (dir cmd : List Char)
    (hq : q = dq ∨ q = sq) (hd : ¬ ',' ∈ dir) (hc : ¬ ',' ∈ cmd) :
    parse_clean_config (renderCleanRecord q dir cmd) = ⟨some dir, some cmd⟩ := by
  have hqws : isWsChar q = false := by rcases hq with h | h <;> subst h <;> decide
  have hqc : ¬(',' : Char) = q := by rcases hq with h | h <;> subst h <;> decide
  have ht := trim_render q dir cmd
  have hpre : stripPrefixChar '{' (renderCleanRecord q dir cmd) =
      some (((' ' :: recInner q dir cmd) ++ [' ']) ++ ['}']) := by
    rw [render_shape]; rfl
  have hsuf : stripSuffixChar '}'
      (((' ' :: recInner q dir cmd) ++ [' ']) ++ ['}']) =
      some ((' ' :: recInner q dir cmd) ++ [' ']) :=
    stripSuffixChar_append_self _ _
  have hcontent : trimChars ((' ' :: recInner q dir cmd) ++ [' ']) =
      recInner q dir cmd := by
    unfold trimChars
    rw [List.cons_append, trimLeft_cons_space]
    rw [trimLeft_eq_self (show (recInner q dir cmd ++ [' ']).head? = some 'c' by
      simp [recInner, recSeg1]) (by decide)]
    rw [trimRight_append_space]
    exact trimRight_eq_self (show (recInner q dir cmd).getLast? = some q by
      rw [← List.head?_reverse]
      simp [recInner, recSeg1, recSeg2, recSeg2core]) hqws
  have hmem1 : ¬(',' : Char) ∈ recSeg1 q cmd := by
    simp [recSeg1, hc, hqc]
  have hmem2 : ¬(',' : Char) ∈ recSeg2 q dir := by
    simp [recSeg2, recSeg2core, hd, hqc]
  have hsplit : splitOnChar ',' (recInner q dir cmd) =
      [recSeg1 q cmd, recSeg2 q dir] := by
    unfold recInner
    rw [splitOnChar_append _ hmem1, splitOnChar_of_not_mem hmem2]
  simp only [parse_clean_config]
  rw [ht, hpre]
  simp only [Option.getD_some]
  rw [hsuf]
  simp only [Option.getD_some]
  rw [hcontent, hsplit]
  simp only [List.foldl_cons, List.foldl_nil]
  rw [applyKV_recSeg1 _ cmd hq, applyKV_recSeg2 _ dir hq]

/-! ## Claim C4 and C5 theorems -/

/-- Claim C4 (corrected), counterexample: a command value containing a
comma does not round-trip — saving `a, b` and loading it back yields the
mangled command `"a` (the parser splits at every comma, including those
inside quoted values), so the universally-quantified round-trip claim is
false. -/
theorem c4_counterexample_comma_breaks_roundtrip :
    read_config_model dq
        (save_config_model emptyToolStore "default" buildDir commaCmd)
        "default" = ⟨some buildDir, some [dq, 'a']⟩ ∧
      ¬read_config_model dq
        (save_config_model emptyToolStore "default" buildDir commaCmd)
        "default" = ⟨some buildDir, some commaCmd⟩ := by
  decide

/-- Claim C4 (amended): the save/load round-trip reproduces the
configuration exactly for every record whose dir and command values contain
no comma character, for the same feature, including command strings with an
embedded `=` and values coming back wrapped in either double or single
quotes; a comma inside a value breaks the round-trip (see the
counterexample). -/
theorem c4_roundtrip_amended (q : Char) (st : ToolStore) (f : String)
    (dir cmd : List Char) (hq : q = dq ∨ q = sq)
    (hd : ¬ ',' ∈ dir) (hc : ¬ ',' ∈ cmd) :
    read_config_model q (save_config_model st f dir cmd) f =
      ⟨some dir, some cmd⟩ := by
  have h1 : save_config_model st f dir cmd f "clean.cmd" = some cmd := by
    simp [save_config_model, toolSet]
  have h2 : save_config_model st f dir cmd f "clean.dir" = some dir := by
    simp [save_config_model, toolSet]
  have hlist : toolListClean q (save_config_model st f dir cmd) f =
      some (renderCleanRecord q dir cmd) := by
    unfold toolListClean
    rw [h1, h2]
  have hempty : (renderCleanRecord q dir cmd).isEmpty = false := by
    rw [render_shape]; rfl
  unfold read_config_model
  rw [hlist]
  simp only [trim_render, hempty, Bool.false_eq_true, if_false]
  exact parse_render_record dir cmd hq hd hc

/-- Witness for the amended C4: a command with an embedded `=` round-trips
exactly under double-quote wrapping. -/
theorem c4_roundtrip_amended_witness :
    read_config_model dq
        (save_config_model emptyToolStore "default" buildDir savedCmd)
        "default" = ⟨some buildDir, some savedCmd⟩ :=
  c4_roundtrip_amended dq emptyToolStore "default" buildDir savedCmd
    (Or.inl rfl) (by decide) (by decide)

theorem stripSuffixChar_eq (c : Char) (l : List Char) :
    stripSuffixChar c l =
      if endsWithChar c l then some l.dropLast else none := by
  cases hr : l.reverse with
  | nil =>
    have hl : l = [] := by simpa using congrArg List.reverse hr
    subst hl
    simp [stripSuffixChar, stripPrefixChar, endsWithChar, startsWithChar]
  | cons y ys =>
    have hl : l = ys.reverse ++ [y] := by
      have h2 := congrArg List.reverse hr
      simpa using h2
    rw [hl]
    by_cases hyc : y = c
    · subst hyc
      simp [stripSuffixChar, stripPrefixChar, endsWithChar, startsWithChar,
        List.reverse_append]
    · simp [stripSuffixChar, stripPrefixChar, endsWithChar, startsWithChar,
        List.reverse_append, hyc]

theorem stripBraces_code_eq (t : List Char) :
    (stripSuffixChar '}' ((stripPrefixChar '{' t).getD t)).getD t =
      stripBracesAmended t := by
  cases t with
  | nil =>
    simp [stripPrefixChar, stripSuffixChar, stripBracesAmended, endsWithChar,
      startsWithChar]
  | cons x xs =>
    by_cases hx : x = '{'
    · subst hx
      rw [show stripPrefixChar '{' ('{' :: xs) = some xs from by
        simp [stripPrefixChar]]
      simp only [Option.getD_some]
      rw [stripSuffixChar_eq]
      unfold stripBracesAmended
      rw [show startsWithChar '{' ('{' :: xs) = true from by
        simp [startsWithChar]]
      simp only [List.drop_one, List.tail_cons, if_true]
      by_cases he : endsWithChar '}' xs <;> simp [he]
    · rw [show stripPrefixChar '{' (x :: xs) = none from by
        simp [stripPrefixChar, hx]]
      simp only [Option.getD_none]
      rw [stripSuffixChar_eq]
      unfold stripBracesAmended
      rw [show startsWithChar '{' (x :: xs) = false from by
        simp [startsWithChar, hx]]
      simp only [Bool.false_eq_true, if_false]
      by_cases he : endsWithChar '}' (x :: xs) <;> simp [he]

theorem applyKV_eq_parseSegment (cfg : CleanConfig) (part : List Char) :
    applyKV cfg part =
      match parseSegment part with
      | some kv => assignKV cfg kv
      | none => cfg := by
  unfold applyKV parseSegment assignKV
  cases h : splitOnceChar '=' (trimChars part) <;> simp [h]

theorem foldl_applyKV (cfg : CleanConfig) (parts : List (List Char)) :
    parts.foldl applyKV cfg =
      (parts.filterMap parseSegment).foldl assignKV cfg := by
  induction parts generalizing cfg with
  | nil => rfl
  | cons p ps ih =>
    rw [List.foldl_cons, applyKV_eq_parseSegment]
    cases hp : parseSegment p <;> simp [List.filterMap_cons, hp, ih]

/-- Claim C5 (corrected), counterexample: on the input `cmd = "a, b" }` the
code's parser and the claim's described steps disagree — the code splits at
the comma inside the quoted value and strips the unmatched trailing `}`
(yielding command `"a`), while the described steps (top-level comma split,
matching-brace strip) would yield command `"a, b" }` — so the parser does
not compute its result by exactly the claimed steps. -/
theorem c5_counterexample_not_spec_steps :
    parse_clean_config c5Input = ⟨none, some [dq, 'a']⟩ ∧
      parse_clean_config_spec c5Input =
        ⟨none, some [dq, 'a', ',', ' ', 'b', dq, ' ', '}']⟩ ∧
      ¬parse_clean_config c5Input = parse_clean_config_spec c5Input := by
  decide

/-- Claim C5 (amended): for every input, the parser computes its result by
exactly these steps: trim; strip a leading `{` together with a trailing `}`
when both are present, strip a trailing `}` even when no leading `{` is
present, and keep a lone leading `{`; split on every comma (also commas
inside quoted values); split each segment on the first `=` only so values
containing `=` are preserved; trim whitespace; and strip one matching pair
of surrounding quote characters (double or single) from each value without
un-escaping embedded escaped quotes. -/
theorem c5_parser_steps_amended (s : List Char) :
    parse_clean_config s = parse_clean_config_amended s := by
  simp only [parse_clean_config, parse_clean_config_amended]
  rw [stripBraces_code_eq, foldl_applyKV]

end C2RustClean
